import Mathlib

/-!
Verification development for the Nexus-Engine reliability toolkit.

Each Python component relevant to the checked properties is shallowly embedded
as executable Lean definitions: machine integers become `Nat`/`Int` with
explicit `% 2^32` where the source reduces modulo the hash space, Python
`float` arithmetic on rates becomes `Rat` (with Python's 4-decimal banker's
rounding made explicit), dicts become insertion-ordered association lists,
and wall-clock reads become explicit `now` parameters (the several clock
reads inside one call are collapsed to the single timestamp the call records).
Fallible code returns `Except`/`Option` values.
-/

namespace NexusEngine

/-- Association-list lookup; mirrors a Python dict read (`d[k]` / `d.get(k)`). -/
def alistLookup {κ α : Type} [DecidableEq κ] (l : List (κ × α)) (k : κ) : Option α :=
  match l with
  | [] => none
  | (k', v) :: rest => if k' = k then some v else alistLookup rest k

/-- Association-list write; mirrors Python dict assignment `d[k] = v`:
an existing key keeps its position, a new key is appended (insertion order). -/
def alistSet {κ α : Type} [DecidableEq κ] (l : List (κ × α)) (k : κ) (v : α) : List (κ × α) :=
  match l with
  | [] => [(k, v)]
  | (k', v') :: rest => if k' = k then (k, v) :: rest else (k', v') :: alistSet rest k v

/-- Millisecond length of one rate-limiter unit; mirrors the
`{'second': 1000, 'minute': 60000, 'hour': 3600000, 'day': 86400000}`
tables in `SlidingWindow.py` and `FixedWindowCounter.py`. -/
def unitMs (unit : String) : Nat :=
  if unit = "second" then 1000
  else if unit = "minute" then 60000
  else if unit = "hour" then 3600000
  else if unit = "day" then 86400000
  else 0

/-- State of `SlidingWindow` (per-key timestamp log rate limiter),
from `src/engine/rate_limiting/SlidingWindow.py`. -/
structure SlidingWindow where
  unit : String
  window : Nat
  limit : Nat
  map : List (String × List Nat)
  blacklist : List String
  user_metrics : List (String × Nat × Nat)
  allowed : Nat
  denied : Nat
deriving DecidableEq, Repr

/-- The valid unit strings of both rate limiters. -/
def validUnits : List String := ["second", "minute", "hour", "day"]

/-- `SlidingWindow.__init__` after its validations. -/
def SlidingWindow.init (unit : String) (window limit : Nat) : SlidingWindow :=
  { unit := unit, window := window, limit := limit, map := [], blacklist := [],
    user_metrics := [], allowed := 0, denied := 0 }

/-- Window length in milliseconds: `self.window * unit_ms[self.unit]`. -/
def SlidingWindow.windowMs (sw : SlidingWindow) : Nat :=
  sw.window * unitMs sw.unit

/-- Per-key core of `SlidingWindow.allow` (lines 126-150): under the limit,
append the timestamp and allow; otherwise drop the timestamps strictly below
`now - window` (the `bisect_left` prefix slice on the ascending list) and
re-check. Returns the new timestamp list for the key and the decision. -/
def swAllowCore (L W : Nat) (arr : List Nat) (now : Nat) : List Nat × Bool :=
  if arr.length < L then (arr ++ [now], true)
  else
    let start := now - W
    let arr2 := arr.dropWhile (fun s => s < start)
    if arr2.length < L then (arr2 ++ [now], true) else (arr2, false)

/-- Increment the per-key allowed counter: `self.user_metrics[key][0] += 1`. -/
def bumpAllowedMetric (um : List (String × Nat × Nat)) (key : String) :
    List (String × Nat × Nat) :=
  let p := (alistLookup um key).getD (0, 0)
  alistSet um key (p.1 + 1, p.2)

/-- Increment the per-key denied counter: `self.user_metrics[key][1] += 1`. -/
def bumpDeniedMetric (um : List (String × Nat × Nat)) (key : String) :
    List (String × Nat × Nat) :=
  let p := (alistLookup um key).getD (0, 0)
  alistSet um key (p.1, p.2 + 1)

/-- `SlidingWindow.allow(key)`: blacklisted keys are denied with no state
change at all; otherwise first use initialises the key's entries, then the
timestamp-log decision runs and the per-key/global counters are updated. -/
def SlidingWindow.allow (sw : SlidingWindow) (key : String) (now : Nat) :
    SlidingWindow × Bool :=
  if key ∈ sw.blacklist then (sw, false)
  else
    let sw1 :=
      if (alistLookup sw.map key).isNone then
        { sw with map := alistSet sw.map key [],
                  user_metrics := alistSet sw.user_metrics key (0, 0) }
      else sw
    let arr := (alistLookup sw1.map key).getD []
    let r := swAllowCore sw1.limit sw1.windowMs arr now
    if r.2 then
      ({ sw1 with map := alistSet sw1.map key r.1,
                  user_metrics := bumpAllowedMetric sw1.user_metrics key,
                  allowed := sw1.allowed + 1 }, true)
    else
      ({ sw1 with map := alistSet sw1.map key r.1,
                  user_metrics := bumpDeniedMetric sw1.user_metrics key,
                  denied := sw1.denied + 1 }, false)

/-- `SlidingWindow.get_denied()`. -/
def SlidingWindow.getDenied (sw : SlidingWindow) : Nat := sw.denied

/-- `SlidingWindow.get_bad_actors()`: keys whose denied count exceeds their
allowed count, in insertion order. -/
def SlidingWindow.getBadActors (sw : SlidingWindow) : List String :=
  (sw.user_metrics.filter (fun p => p.2.1 < p.2.2)).map (fun p => p.1)

/-- Booleans returned by a sequence of `allow(key)` calls on one key at the
given (non-decreasing) wall-clock timestamps. -/
def swRunKey (sw : SlidingWindow) (key : String) : List Nat → List Bool
  | [] => []
  | t :: ts =>
    let r := sw.allow key t
    r.2 :: swRunKey r.1 key ts

/-- The per-key core run used to analyse `swRunKey`. -/
def swCoreRun (L W : Nat) (arr : List Nat) : List Nat → List Bool
  | [] => []
  | t :: ts =>
    let r := swAllowCore L W arr t
    r.2 :: swCoreRun L W r.1 ts

/-- A concrete sliding-window state with a blacklisted key. -/
def swBlacklistExample : SlidingWindow :=
  { unit := "second", window := 1, limit := 2, map := [("k", [100])],
    blacklist := ["k"], user_metrics := [("k", (1, 0))], allowed := 1, denied := 0 }

/-- Python's banker's rounding (round half to even) of a rational to an
integer, written with the explicit remainder test. -/
def roundHalfEven (x : Rat) : Int :=
  let n := ⌊x⌋
  let f := x - n
  if f < 1 / 2 then n
  else if 1 / 2 < f then n + 1
  else if n % 2 = 0 then n else n + 1

/-- Python `round(x, 4)` on the failure-rate values, over `Rat`. -/
def pyRound4 (x : Rat) : Rat :=
  (roundHalfEven (x * 10000) : Rat) / 10000

/-- The three states of `CircuitBreaker` (`"Closed"`, `"Half-Open"`, `"Open"`
in the source). -/
inductive CBState where
  | Closed
  | Open
  | HalfOpen
deriving DecidableEq, Repr

/-- Breaker errors: the Open-state policy rejection (with its message) or the
protected operation's own exception, surfaced verbatim. -/
inductive CBError where
  | openState (msg : String)
  | opFailure (msg : String)
deriving DecidableEq, Repr

/-- The `(ok, result, err)` triple returned by `CircuitBreaker.run`. -/
structure RunResult (α : Type) where
  ok : Bool
  value : Option α
  err : Option CBError
deriving DecidableEq, Repr

/-- State of `CircuitBreaker`, from
`src/engine/CircuitBreaker/CircuitBreaker.py`. -/
structure CircuitBreaker where
  state : CBState
  time_opened : Option Nat
  key : String
  failure_rate : Rat
  duration_until_half_opened : Nat
  open_half_calls : Nat
  success : Nat
  error : Nat
  half_open_success : Nat
  half_open_error : Nat
deriving DecidableEq, Repr

/-- Message of the Open-state error raised from the Closed handler. -/
def closedOpenMsg : String :=
  "Circuit Breaker is in the Open State, no calls allowed."

/-- Message of the Open-state error raised from the Open/Half-Open handlers. -/
def openRejectMsg : String :=
  "Circuit Breaker in open state, no requests allowed."

/-- `CircuitBreaker.__get_failure_rate`: 0.0 with no completed calls,
otherwise `round(error / total, 4)`. -/
def CircuitBreaker.getFailureRate (cb : CircuitBreaker) : Rat :=
  if cb.success + cb.error = 0 then 0
  else pyRound4 ((cb.error : Rat) / ((cb.success + cb.error : Nat) : Rat))

/-- `CircuitBreaker.__handle_closed`. The protected callable is modelled by
the one outcome `op` it would produce; the final `Nat` counts how many times
the callable is invoked, so short-circuit paths are observable. -/
def CircuitBreaker.handleClosed {α : Type} (cb : CircuitBreaker) (now : Nat)
    (op : Except String α) : CircuitBreaker × RunResult α × Nat :=
  if cb.failure_rate ≤ cb.getFailureRate then
    ({ cb with state := CBState.Open, time_opened := some now },
      ⟨false, none, some (CBError.openState closedOpenMsg)⟩, 0)
  else
    match op with
    | Except.error e =>
      ({ cb with error := cb.error + 1 },
        ⟨false, none, some (CBError.opFailure e)⟩, 1)
    | Except.ok v =>
      ({ cb with success := cb.success + 1 }, ⟨true, some v, none⟩, 1)

/-- `CircuitBreaker.__handle_half_open`: after the probe budget is consumed,
close (and handle the call in Closed) when the raw half-open failure rate is
at most the threshold, else reopen; within the budget, probe. -/
def CircuitBreaker.handleHalfOpen {α : Type} (cb : CircuitBreaker) (now : Nat)
    (op : Except String α) : CircuitBreaker × RunResult α × Nat :=
  if cb.open_half_calls ≤ cb.half_open_success + cb.half_open_error then
    let total := cb.half_open_success + cb.half_open_error
    let halfRate : Rat := if total = 0 then 1 else (cb.half_open_error : Rat) / (total : Rat)
    if halfRate ≤ cb.failure_rate then
      CircuitBreaker.handleClosed
        { cb with success := 0, error := 0, time_opened := none,
                  state := CBState.Closed } now op
    else
      ({ cb with state := CBState.Open, time_opened := some now },
        ⟨false, none, some (CBError.openState openRejectMsg)⟩, 0)
  else
    match op with
    | Except.error e =>
      ({ cb with half_open_error := cb.half_open_error + 1 },
        ⟨false, none, some (CBError.opFailure e)⟩, 1)
    | Except.ok v =>
      ({ cb with half_open_success := cb.half_open_success + 1 },
        ⟨true, some v, none⟩, 1)

/-- `CircuitBreaker.__handle_open`: after the cool-down, move to Half-Open
(zeroing the half counters) and delegate; otherwise fail fast. In the Open
state `time_opened` is always set (source invariant), so the `getD 0` default
is never exercised on reachable states. -/
def CircuitBreaker.handleOpen {α : Type} (cb : CircuitBreaker) (now : Nat)
    (op : Except String α) : CircuitBreaker × RunResult α × Nat :=
  if cb.duration_until_half_opened ≤ now - cb.time_opened.getD 0 then
    CircuitBreaker.handleHalfOpen
      { cb with state := CBState.HalfOpen, half_open_success := 0,
                half_open_error := 0 } now op
  else
    (cb, ⟨false, none, some (CBError.openState openRejectMsg)⟩, 0)

/-- `CircuitBreaker.run`: dispatch on the current state. -/
def CircuitBreaker.run {α : Type} (cb : CircuitBreaker) (now : Nat)
    (op : Except String α) : CircuitBreaker × RunResult α × Nat :=
  match cb.state with
  | CBState.Closed => cb.handleClosed now op
  | CBState.Open => cb.handleOpen now op
  | CBState.HalfOpen => cb.handleHalfOpen now op

/-- A Closed breaker with threshold 0.33331 whose counters are
success = 2, error = 1 (true failure rate 1/3 ≥ 0.33331, rounded rate
0.3333 < 0.33331). -/
def cbRoundingExample : CircuitBreaker :=
  { state := CBState.Closed, time_opened := none, key := "k",
    failure_rate := 33331 / 100000, duration_until_half_opened := 10,
    open_half_calls := 2, success := 2, error := 1,
    half_open_success := 0, half_open_error := 0 }

/-- A Closed breaker with threshold 1 and one recorded failure. -/
def cbTrippedExample : CircuitBreaker :=
  { state := CBState.Closed, time_opened := none, key := "k",
    failure_rate := 1, duration_until_half_opened := 10,
    open_half_calls := 2, success := 0, error := 1,
    half_open_success := 0, half_open_error := 0 }

/-- State of `FixedWindowCounter`, from
`src/engine/rate_limiting/FixedWindowCounter.py`: per-key counters with a
single shared window-start timestamp. -/
structure FixedWindowCounter where
  unit : String
  limit : Nat
  map : List (String × Nat)
  start_window : Nat
  blacklist : List String
  allowed : Nat
  denied : Nat
  user_metrics : List (String × Nat × Nat)
deriving DecidableEq, Repr

/-- `FixedWindowCounter._ensure_window_current`: reset the window if the
time moved forward past the window end or backwards before its start. -/
def FixedWindowCounter.ensureWindowCurrent (fw : FixedWindowCounter) (now : Nat) :
    FixedWindowCounter :=
  if now < fw.start_window ∨ fw.start_window + unitMs fw.unit < now then
    { fw with start_window := now, map := [] }
  else fw

/-- `FixedWindowCounter.remaining(key)`: advance a stale window, then return
`limit - count` (an `Int`, as the source subtraction is on Python ints with
no clamping); the possibly-reset state is returned alongside to make the
side effect observable. -/
def FixedWindowCounter.remaining (fw : FixedWindowCounter) (key : String)
    (now : Nat) : FixedWindowCounter × Int :=
  let fw1 := fw.ensureWindowCurrent now
  (fw1, (fw1.limit : Int) - ((alistLookup fw1.map key).getD 0 : Int))

/-- `FixedWindowCounter.allow(key)`: metrics entry is created first
(`setdefault`), blacklisted keys are denied and accounted, otherwise the
window is advanced and the per-key counter checked against the limit. -/
def FixedWindowCounter.allow (fw : FixedWindowCounter) (key : String)
    (now : Nat) : FixedWindowCounter × Bool :=
  let fw0 :=
    if (alistLookup fw.user_metrics key).isNone then
      { fw with user_metrics := alistSet fw.user_metrics key (0, 0) }
    else fw
  if key ∈ fw0.blacklist then
    ({ fw0 with denied := fw0.denied + 1,
                user_metrics := bumpDeniedMetric fw0.user_metrics key }, false)
  else
    let fw1 := fw0.ensureWindowCurrent now
    let count := (alistLookup fw1.map key).getD 0
    if fw1.limit ≤ count then
      ({ fw1 with denied := fw1.denied + 1,
                  user_metrics := bumpDeniedMetric fw1.user_metrics key }, false)
    else
      ({ fw1 with map := alistSet fw1.map key (count + 1),
                  allowed := fw1.allowed + 1,
                  user_metrics := bumpAllowedMetric fw1.user_metrics key }, true)

/-- A fixed-window state whose window (1 second from start 0) is stale at
time 5000 and which holds a nonzero count for "k". -/
def fwStaleExample : FixedWindowCounter :=
  { unit := "second", limit := 1, map := [("k", 1)], start_window := 0,
    blacklist := [], allowed := 1, denied := 0, user_metrics := [("k", (1, 0))] }

/-- `TaskResult(completed_at, result)` from
`src/engine/TaskQueue/TaskQueue.py`, stored by the Worker. -/
structure TaskResult (α : Type) where
  completed_at : Nat
  result : α
deriving DecidableEq, Repr

/-- The result-recording step shared by `Worker.execute_tasks` (lines 78-79)
and `Worker.__handle_task_failure` (lines 106-107): evict the oldest entry
when the deque is at `max_results`, then append the new `TaskResult` at the
newest end. -/
def workerRecordResult {α : Type} (max_results : Nat)
    (results : List (TaskResult α)) (t : Nat) (v : α) : List (TaskResult α) :=
  (if max_results ≤ results.length then results.drop 1 else results) ++ [⟨t, v⟩]

/-- The results deque after a sequence of successful completions, each
recorded at its wall-clock completion time. -/
def workerRunResults {α : Type} (max_results : Nat)
    (results : List (TaskResult α)) : List (Nat × α) → List (TaskResult α)
  | [] => results
  | (t, v) :: evs =>
    workerRunResults max_results (workerRecordResult max_results results t v) evs

/-- `ConsistentHashing.UPPER_BOUND = 2 ** 32 - 1`: the top of the hash
space. All ring positions lie in `[0, UPPER_BOUND]`. -/
def UPPER_BOUND : Nat := 2 ^ 32 - 1

/-- State of `ConsistentHashing`, from
`src/engine/ConsistentHashing/ConsistentHashing.py`: the sorted vnode
position list and the `server -> [owned ring indices, max index]` mapping
(sets become insertion-ordered lists; the max index starts at -1). -/
structure ConsistentHashing where
  servers : Nat
  nodes : Nat
  ring_nodes : List Nat
  mapping : List (Nat × List Nat × Int)
deriving DecidableEq, Repr

/-- Modular arc length `(b - a) % (UPPER_BOUND + 1)` on Python ints, for
positions `a`, `b` in `[0, UPPER_BOUND]`. -/
def ringGap (a b : Nat) : Nat :=
  (b + (UPPER_BOUND + 1) - a) % (UPPER_BOUND + 1)

/-- Arc length from ring position `i` to `(i+1) % N`, the body of
`get_node_capacity` on a valid index. -/
def nodeGap (l : List Nat) (i : Nat) : Nat :=
  ringGap (l.getD i 0) (l.getD ((i + 1) % l.length) 0)

/-- `ConsistentHashing.get_node_capacity(node)`: -1 for an out-of-range
index, else the modular distance to the next ring position. (The source also
rejects negative indices, which the `Nat` index excludes.) -/
def ConsistentHashing.getNodeCapacity (ch : ConsistentHashing) (node : Nat) : Int :=
  if ch.ring_nodes.length ≤ node then -1
  else (nodeGap ch.ring_nodes node : Int)

/-- `ConsistentHashing.get_server_capacity(server)`: -1 for an unknown
server, else the sum of the owned vnodes' capacities. -/
def ConsistentHashing.getServerCapacity (ch : ConsistentHashing) (server : Nat) : Int :=
  match alistLookup ch.mapping server with
  | none => -1
  | some info => (info.1.map (fun i => ch.getNodeCapacity i)).sum

/-- Sum of `get_server_capacity(s)` over all servers present in the mapping
(mapping keys are unique on every state the class builds). -/
def ConsistentHashing.totalServerCapacity (ch : ConsistentHashing) : Int :=
  (ch.mapping.map (fun e => ch.getServerCapacity e.1)).sum

/-- Number of cyclic descents of the position list: indices `i` with
`ring[(i+1) % N] < ring[i]`. A sorted ring with at least two distinct
positions has exactly one (the wrap-around); a single-vnode ring has none. -/
def cyclicDescents (l : List Nat) : Nat :=
  ((Finset.range l.length).filter
    (fun i => l.getD ((i + 1) % l.length) 0 < l.getD i 0)).card

/-- `str(obj)` for the hashed data: `None` prints as `"None"`, a string as
itself, so `__hash_object` accepts `None` without raising. -/
def pyStr : Option String → String
  | none => "None"
  | some s => s

/-- `ConsistentHashing.__get_server_from_ring_index`: scan the mapping in
insertion order for the owner of the index; 0 if unowned. -/
def ConsistentHashing.getServerFromRingIndex (ch : ConsistentHashing)
    (index : Nat) : Nat :=
  match ch.mapping.find? (fun e => e.2.1.contains index) with
  | some e => e.1
  | none => 0

/-- `ConsistentHashing.__get_ring_index_from_hash`: raises on an empty ring,
else reduces the hash modulo the number of vnodes. -/
def ConsistentHashing.getRingIndexFromHash (ch : ConsistentHashing)
    (hash_val : Nat) : Except String Nat :=
  if ch.ring_nodes.isEmpty then Except.error "Ring has no virtual nodes"
  else Except.ok (hash_val % ch.ring_nodes.length)

/-- `ConsistentHashing.get_server(data)`: hash (the SHA-256 digest is the
oracle `h` on the stringified data - it accepts `None`), reduce modulo
2^32, map to a ring index (raising on an empty ring), resolve the owner. -/
def ConsistentHashing.getServer (h : String → Nat) (ch : ConsistentHashing)
    (data : Option String) : Except String Nat :=
  let hash_val := h (pyStr data) % (UPPER_BOUND + 1)
  (ch.getRingIndexFromHash hash_val).map ch.getServerFromRingIndex

/-- Stable insertion (by ring position, second component) used to model
Python's `pairs.sort(key=lambda x: x[1])`. -/
def insertByPos (p : Nat × Nat) : List (Nat × Nat) → List (Nat × Nat)
  | [] => [p]
  | q :: rest => if q.2 < p.2 then q :: insertByPos p rest else p :: q :: rest

/-- Stable sort of the (server, position) pairs by position. -/
def sortByPos (l : List (Nat × Nat)) : List (Nat × Nat) :=
  l.foldr insertByPos []

/-- One step of the mapping construction in `__build_ring`: give ring index
`i` to `server`, updating its owned set and max index. -/
def addOwnedIndex (m : List (Nat × List Nat × Int)) (server i : Nat) :
    List (Nat × List Nat × Int) :=
  match alistLookup m server with
  | none => alistSet m server ([i], (i : Int))
  | some info => alistSet m server (info.1 ++ [i], max info.2 (i : Int))

/-- `ConsistentHashing.__build_ring` (after `__init__` validation): the
random draws are supplied as an oracle list, reduced into `[0, UPPER_BOUND]`
as `randint(0, UPPER_BOUND)` guarantees; pairs are sorted by position and
each server records the ring indices it owns. -/
def buildRing (S V : Nat) (draws : List Nat) : ConsistentHashing :=
  let pairs := (List.range S).flatMap (fun s =>
    (List.range V).map (fun j => (s, draws.getD (s * V + j) 0 % (UPPER_BOUND + 1))))
  let sorted := sortByPos pairs
  { servers := S, nodes := V,
    ring_nodes := sorted.map (fun p => p.2),
    mapping := (sorted.enum).foldl (fun m p => addOwnedIndex m p.2.1 p.1) [] }

/-- `Metadata` from `src/engine/LoadBalancer/models.py` (field spellings,
including `sucess`, follow the source; float fields become `Rat`). -/
structure Metadata where
  total_requests : Nat
  speeds : List Rat
  total_time : Rat
  latency : Rat
  sucess : Nat
  failure : Nat
  sucess_rate : Rat
deriving DecidableEq, Repr

/-- `Server` from `src/engine/LoadBalancer/models.py`. Weights and
connection counts are naturals (valid backends have positive weight). -/
structure Server where
  name : String
  url : String
  active_connections : Nat
  healthy : Bool
  weight : Nat
  max_connections : Nat
  metadata : Metadata
deriving DecidableEq, Repr

/-- Python exception kinds raised during load-balancer construction. -/
inductive PyError where
  | typeError (msg : String)
  | valueError (msg : String)
  | assertionError (msg : String)
deriving DecidableEq, Repr

/-- `WeightedRoundRobinRequests` from `models.py`: the per-round quota and
the per-round counter of a backend. -/
structure WRRReq where
  requests : Nat
  request_number : Nat
deriving DecidableEq, Repr

/-- The asserts of `LoadBalancerStrategy.__init__` (`LBStrategy.py` lines
8-13); the `isinstance` asserts hold by typing in the embedding. -/
def lbStrategyBaseInit (servers : List (String × Server)) (timeout : Int)
    (healthy : Rat) : Except PyError Unit :=
  if servers.length = 0 then
    Except.error (PyError.assertionError
      "failed to create load balancer, must have at least 1 server for the load balancer")
  else if ¬ 0 < timeout then
    Except.error (PyError.assertionError "timeout must be greater than 0")
  else if ¬ (0 < healthy ∧ healthy < 1) then
    Except.error (PyError.assertionError "healthy must be between 0 and 1 (exclusive)")
  else Except.ok ()

/-- State of the `WeightedRoundRobin` strategy. -/
structure WeightedRoundRobin where
  servers : List (String × Server)
  timeout : Int
  healthy : Rat
  ordered_servers : List (String × WRRReq)
  n : Nat
  current_idx : Nat
deriving DecidableEq, Repr

/-- `WeightedRoundRobin.__build_round_request_data`: each server's quota is
`weight // min_weight` with a zeroed per-round counter, in dict order. (The
`min` of an empty pool would raise in Python; the base-init assert rules that
out, and the embedding's `getD 0` default is never reached.) -/
def buildRoundRequestData (servers : List (String × Server)) :
    List (String × WRRReq) :=
  let min_weight := ((servers.map (fun p => p.2.weight)).min?).getD 0
  servers.map (fun p => (p.1, ⟨p.2.weight / min_weight, 0⟩))

/-- `WeightedRoundRobin.__init__`: base asserts, the round-request table,
and a random starting cursor in `[0, n-1]` (the random draw is the oracle
`r`, reduced mod n as `randint(0, n-1)` guarantees). -/
def WeightedRoundRobin.init (servers : List (String × Server)) (timeout : Int)
    (healthy : Rat) (r : Nat) : Except PyError WeightedRoundRobin :=
  (lbStrategyBaseInit servers timeout healthy).map (fun _ =>
    let ordered := buildRoundRequestData servers
    { servers := servers, timeout := timeout, healthy := healthy,
      ordered_servers := ordered, n := ordered.length,
      current_idx := r % ordered.length })

/-- The strategy object held by a constructed `LoadBalancer`; the
non-weighted strategies keep only the state their `__init__` builds that the
checked claims observe. -/
inductive StrategyState where
  | roundRobin (ordered_servers : List String) (n : Nat) (current_idx : Nat)
  | weightedRoundRobin (w : WeightedRoundRobin)
  | leastTime
deriving DecidableEq, Repr

/-- `LoadBalancer.__init_load_balancer` (LoadBalancer.py lines 37-48):
dispatch on the strategy name. The `"least_connections"` arm calls
`LeastConnectionsLoadBalancing(servers=..., timeout=..., healthy=...)`, but
`LeastConnectionsLoadBalancing.__init__` (LeastConnections.py line 8) has
signature `(self, servers, timeout)` with no `healthy` parameter, so Python
raises TypeError at the call before any constructor body runs. -/
def initLoadBalancerStrategy (strategy : String)
    (servers : List (String × Server)) (timeout : Int) (healthy : Rat)
    (r : Nat) : Except PyError StrategyState :=
  match strategy with
  | "least_connections" =>
    Except.error (PyError.typeError
      "LeastConnectionsLoadBalancing.__init__() got an unexpected keyword argument: healthy")
  | "round_robin" =>
    (lbStrategyBaseInit servers timeout healthy).map (fun _ =>
      StrategyState.roundRobin (servers.map (fun p => p.1)) servers.length
        (r % servers.length))
  | "weighted_round_robin" =>
    (WeightedRoundRobin.init servers timeout healthy r).map
      StrategyState.weightedRoundRobin
  | "least_time" =>
    (lbStrategyBaseInit servers timeout healthy).map (fun _ => StrategyState.leastTime)
  | _ =>
    Except.error (PyError.valueError
      "Error initializing load balancer, strategy must be one of the four known strategies")

/-- A constructed `LoadBalancer` (LoadBalancer.py `__init__`). -/
structure LoadBalancer where
  strategy : String
  timeout : Int
  healthy : Rat
  servers : List (String × Server)
  load_balancer : StrategyState
deriving DecidableEq, Repr

/-- `LoadBalancer.__init__`: the dict asserts, then the strategy dispatch. -/
def LoadBalancer.init (strategy : String) (timeout : Int)
    (servers : List (String × Server)) (healthy : Rat) (r : Nat) :
    Except PyError LoadBalancer :=
  if servers.length = 0 then
    Except.error (PyError.assertionError "must have at least 1 server")
  else
    (initLoadBalancerStrategy strategy servers timeout healthy r).map
      (fun st => { strategy := strategy, timeout := timeout, healthy := healthy,
                   servers := servers, load_balancer := st })

/-- Placeholder `Server` for the unreachable `getD` defaults. -/
def dummyServer : Server :=
  { name := "", url := "", active_connections := 0, healthy := false,
    weight := 0, max_connections := 0,
    metadata := { total_requests := 0, speeds := [], total_time := 0,
                  latency := 0, sucess := 0, failure := 0, sucess_rate := 1 } }

/-- The `while iterations < self.n` loop of `WeightedRoundRobin.__next__`
(WeightedRoundRobin.py lines 31-54), with the remaining iteration budget as
fuel: advance the cursor; skip unhealthy or at-capacity servers; serve a
backend under its round quota (incrementing its counter); reset the counter
of a backend that hit its quota and keep scanning. Returns the updated
table, the cursor, and the chosen key (`none` models the final
RuntimeError). -/
def wrrLoop (servers : List (String × Server)) (n : Nat) :
    Nat → List (String × WRRReq) → Nat →
      List (String × WRRReq) × Nat × Option String
  | 0, ordered, idx => (ordered, idx, none)
  | fuel + 1, ordered, idx =>
    let idx1 := (idx + 1) % n
    let entry := ordered.getD idx1 ("", ⟨0, 0⟩)
    let server := (alistLookup servers entry.1).getD dummyServer
    if ¬ server.healthy ∨ server.max_connections ≤ server.active_connections then
      wrrLoop servers n fuel ordered idx1
    else if entry.2.request_number < entry.2.requests then
      (ordered.set idx1 (entry.1, ⟨entry.2.requests, entry.2.request_number + 1⟩),
        idx1, some entry.1)
    else
      wrrLoop servers n fuel (ordered.set idx1 (entry.1, ⟨entry.2.requests, 0⟩)) idx1

/-- `WeightedRoundRobin.__next__`: run the scan loop with budget `n`. -/
def WeightedRoundRobin.next (w : WeightedRoundRobin) :
    WeightedRoundRobin × Option String :=
  let r := wrrLoop w.servers w.n w.n w.ordered_servers w.current_idx
  ({ w with ordered_servers := r.1, current_idx := r.2.1 }, r.2.2)

/-- The selections of `k` consecutive `next()` calls. -/
def wrrRun (w : WeightedRoundRobin) : Nat → List (Option String)
  | 0 => []
  | k + 1 =>
    let r := w.next
    r.2 :: wrrRun r.1 k

/-- A healthy backend with the given name and weight, far below capacity. -/
def mkBackend (name : String) (weight : Nat) : Server :=
  { name := name, url := "http://localhost", active_connections := 0,
    healthy := true, weight := weight, max_connections := 100,
    metadata := { total_requests := 0, speeds := [], total_time := 0,
                  latency := 0, sucess := 0, failure := 0, sucess_rate := 1 } }

/-- The three-backend pool of the weighted-fairness scenario:
weights {4, 2, 1}, all healthy and below capacity. -/
def wrrPool : List (String × Server) :=
  [("A", mkBackend "A" 4), ("B", mkBackend "B" 2), ("C", mkBackend "C" 1)]

/-- The weighted strategy over `wrrPool` with starting cursor 2 (so the
first call serves backend A). -/
def wrrExample : WeightedRoundRobin :=
  { servers := wrrPool, timeout := 30, healthy := 1 / 2,
    ordered_servers := [("A", ⟨4, 0⟩), ("B", ⟨2, 0⟩), ("C", ⟨1, 0⟩)],
    n := 3, current_idx := 2 }

/-- The attributes the `RequestHedging` class body defines
(`src/engine/RequestHedging/RequestHedging.py`): the constructor, `request`,
and the coroutine `fetch_data`. There is no `request_async`. -/
def requestHedgingAttrs : List String := ["__init__", "request", "fetch_data"]

/-- Python attribute resolution on the class: `some` iff the name is
defined. -/
def pyLookupMethod (attrs : List String) (name : String) : Option String :=
  if attrs.contains name then some name else none

/-- Exceptions surfaced by the hedging client paths the claims exercise. -/
inductive HedgeError where
  | attributeError (msg : String)
  | valueError (msg : String)
deriving DecidableEq, Repr

/-- `RequestHedging.__init__(url, delay, timeout)` state. -/
structure RequestHedging where
  url : String
  delay : Int
  timeout : Int
deriving DecidableEq, Repr

/-- `RequestHedging.__init__`: rejects non-positive delays. -/
def RequestHedging.init (url : String) (delay : Int) (timeout : Int) :
    Except HedgeError RequestHedging :=
  if delay ≤ 0 then
    Except.error (HedgeError.valueError "Error, delay must be greater than 0")
  else Except.ok { url := url, delay := delay, timeout := timeout }

/-- `RequestHedging.request(method, headers, body)` (lines 17-18): the body
is `asyncio.run(self.request_async(method, headers=headers, body=body))`,
and the attribute access `self.request_async` happens before anything runs.
The class defines no `request_async` (its coroutine is named `fetch_data` -
see `requestHedgingAttrs`), so Python raises AttributeError; `k` stands for
whatever a `request_async` coroutine would have computed had it existed. -/
def RequestHedging.request {α : Type} (rh : RequestHedging) (method : String)
    (headers body : List (String × String))
    (k : String → List (String × String) → List (String × String) →
      Except HedgeError α) : Except HedgeError α :=
  match pyLookupMethod requestHedgingAttrs "request_async" with
  | some _ => k method headers body
  | none =>
    Except.error (HedgeError.attributeError
      "RequestHedging object has no attribute: request_async")

/-! ### Theorems -/

/-- C10: for every SlidingWindow limiter and every key currently in the
blacklist, `allow(key)` returns false and leaves all limiter state unchanged:
the global denied counter, the key's per-key [allowed, denied] metrics and its
timestamp list are not modified, so blacklist denials are invisible to
`get_denied()` and `get_bad_actors()`. -/
theorem sliding_window_blacklist_invisible (sw : SlidingWindow) (key : String)
    (now : Nat) (h : key ∈ sw.blacklist) :
    sw.allow key now = (sw, false) ∧
    ((sw.allow key now).1.denied = sw.denied ∧
      (sw.allow key now).1.user_metrics = sw.user_metrics ∧
      alistLookup (sw.allow key now).1.map key = alistLookup sw.map key) ∧
    (sw.allow key now).1.getDenied = sw.getDenied ∧
    (sw.allow key now).1.getBadActors = sw.getBadActors := by
  simp [SlidingWindow.allow, h]

/-- Witness for C10 at a concrete blacklisted key. -/
theorem sliding_window_blacklist_invisible_witness :
    "k" ∈ swBlacklistExample.blacklist ∧
    (swBlacklistExample.allow "k" 5000 = (swBlacklistExample, false) ∧
      ((swBlacklistExample.allow "k" 5000).1.denied = swBlacklistExample.denied ∧
        (swBlacklistExample.allow "k" 5000).1.user_metrics = swBlacklistExample.user_metrics ∧
        alistLookup (swBlacklistExample.allow "k" 5000).1.map "k" =
          alistLookup swBlacklistExample.map "k") ∧
      (swBlacklistExample.allow "k" 5000).1.getDenied = swBlacklistExample.getDenied ∧
      (swBlacklistExample.allow "k" 5000).1.getBadActors = swBlacklistExample.getBadActors) :=
  ⟨by decide, sliding_window_blacklist_invisible swBlacklistExample "k" 5000 (by decide)⟩

/-- Dropping elements that satisfy `p` cannot change the count of a predicate
`q` that is disjoint from `p`. -/
theorem countP_dropWhile_of_disjoint {p q : Nat → Bool} (l : List Nat)
    (h : ∀ x, p x = true → q x = false) :
    (l.dropWhile p).countP q = l.countP q := by
  induction l with
  | nil => rfl
  | cons x xs ih =>
    rw [List.dropWhile_cons]
    by_cases hx : p x = true
    · simp [hx, ih, List.countP_cons, h x hx]
    · simp [hx]

/-- If every timestamp in `ts` lies strictly beyond `a + W`, no zipped call
is counted inside the window `[a, a + W]`. -/
theorem count_window_of_all_late (ts : List Nat) (bs : List Bool) (a W : Nat)
    (h : ∀ t ∈ ts, a + W < t) :
    ((ts.zip bs).countP
      (fun p => p.2 && (decide (a ≤ p.1) && decide (p.1 ≤ a + W)))) = 0 := by
  rw [List.countP_eq_zero]
  intro pr hpr
  have hmem : pr.1 ∈ ts := (List.of_mem_zip hpr).1
  have := h pr.1 hmem
  simp only [Bool.and_eq_true, decide_eq_true_eq]
  rintro ⟨-, -, h2⟩
  omega

/-- Inductive core of the sliding-window admission bound: along any run of
the per-key core at non-decreasing times, the calls admitted inside
`[a, a + W]` plus the retained timestamps at or after `a` never exceed the
limit. -/
theorem swCore_admission_aux (L W a : Nat) :
    ∀ (ts arr : List Nat), ts.Pairwise (· ≤ ·) → arr.length ≤ L →
    ((ts.zip (swCoreRun L W arr ts)).countP
        (fun p => p.2 && (decide (a ≤ p.1) && decide (p.1 ≤ a + W))))
      + arr.countP (fun s => a ≤ s) ≤ L
  | [], arr, _, harr => by
    simpa using le_trans (List.countP_le_length _) harr
  | t :: ts, arr, hpw, harr => by
    have hts : List.Pairwise (· ≤ ·) ts := (List.pairwise_cons.mp hpw).2
    have hall : ∀ x ∈ ts, t ≤ x := (List.pairwise_cons.mp hpw).1
    by_cases hlate : a + W < t
    · have hz := count_window_of_all_late (t :: ts)
        (swCoreRun L W arr (t :: ts)) a W
        (by
          intro x hx
          rcases List.mem_cons.mp hx with rfl | hx
          · exact hlate
          · exact lt_of_lt_of_le hlate (hall _ hx))
      rw [hz]
      simpa using le_trans (List.countP_le_length _) harr
    · push_neg at hlate
      have hle : decide (t ≤ a + W) = true := decide_eq_true hlate
      have hrun : swCoreRun L W arr (t :: ts)
          = (swAllowCore L W arr t).2 :: swCoreRun L W (swAllowCore L W arr t).1 ts := by
        simp [swCoreRun]
      rw [hrun, List.zip_cons_cons, List.countP_cons]
      by_cases h1 : arr.length < L
      · have hstep : swAllowCore L W arr t = (arr ++ [t], true) := by
          simp [swAllowCore, h1]
        rw [hstep]
        have ih := swCore_admission_aux L W a ts (arr ++ [t]) hts
          (by simpa using h1)
        rw [List.countP_append, List.countP_cons, List.countP_nil] at ih
        cases hat : decide (a ≤ t) with
        | true =>
          rw [hat] at ih
          simp only [hat, hle] at ih ⊢
          simp at ih ⊢
          omega
        | false =>
          rw [hat] at ih
          simp only [hat, hle] at ih ⊢
          simp at ih ⊢
          omega
      · have htW : t - W ≤ a := by omega
        have hcnt : (arr.dropWhile (fun s => s < t - W)).countP (fun s => decide (a ≤ s))
            = arr.countP (fun s => decide (a ≤ s)) := by
          apply countP_dropWhile_of_disjoint
          intro x hx
          simp only [decide_eq_true_eq] at hx
          simp only [decide_eq_false_iff_not]
          omega
        have hlen2 : (arr.dropWhile (fun s => s < t - W)).length ≤ L :=
          le_trans ((List.dropWhile_sublist _).length_le) harr
        by_cases h2 : (arr.dropWhile (fun s => s < t - W)).length < L
        · have hstep : swAllowCore L W arr t
              = (arr.dropWhile (fun s => s < t - W) ++ [t], true) := by
            simp only [swAllowCore, h1, if_false]
            simp [h2]
          rw [hstep]
          have ih := swCore_admission_aux L W a ts
            (arr.dropWhile (fun s => s < t - W) ++ [t]) hts (by simpa using h2)
          rw [List.countP_append, List.countP_cons, List.countP_nil, hcnt] at ih
          cases hat : decide (a ≤ t) with
          | true =>
            rw [hat] at ih
            simp only [hat, hle] at ih ⊢
            simp at ih ⊢
            omega
          | false =>
            rw [hat] at ih
            simp only [hat, hle] at ih ⊢
            simp at ih ⊢
            omega
        · have hstep : swAllowCore L W arr t
              = (arr.dropWhile (fun s => s < t - W), false) := by
            simp only [swAllowCore, h1, if_false]
            simp [h2]
          rw [hstep]
          have ih := swCore_admission_aux L W a ts
            (arr.dropWhile (fun s => s < t - W)) hts hlen2
          rw [hcnt] at ih
          simp only [Bool.false_and]
          simp
          omega

/-- Reading back a key just written into an association list. -/
theorem alistLookup_alistSet_self {κ α : Type} [DecidableEq κ] (l : List (κ × α)) (k : κ)
    (v : α) : alistLookup (alistSet l k v) k = some v := by
  induction l with
  | nil => simp [alistSet, alistLookup]
  | cons p rest ih =>
    by_cases hp : p.1 = k
    · simp [alistSet, alistLookup, hp]
    · simp [alistSet, alistLookup, hp, ih]

/-- For a non-blacklisted key, `SlidingWindow.allow` behaves on that key
exactly like the per-key core, and the configuration fields and blacklist are
untouched. -/
theorem sw_allow_spec (sw : SlidingWindow) (key : String) (now : Nat)
    (h : key ∉ sw.blacklist) :
    (sw.allow key now).2
        = (swAllowCore sw.limit sw.windowMs ((alistLookup sw.map key).getD []) now).2 ∧
      (sw.allow key now).1.limit = sw.limit ∧
      (sw.allow key now).1.window = sw.window ∧
      (sw.allow key now).1.unit = sw.unit ∧
      (sw.allow key now).1.blacklist = sw.blacklist ∧
      (alistLookup (sw.allow key now).1.map key).getD []
        = (swAllowCore sw.limit sw.windowMs ((alistLookup sw.map key).getD []) now).1 := by
  unfold SlidingWindow.allow
  rw [if_neg h]
  by_cases hmem : (alistLookup sw.map key).isNone
  · have hnone : alistLookup sw.map key = none := Option.isNone_iff_eq_none.mp hmem
    rw [hnone]
    simp only [Option.isNone_none, if_true, SlidingWindow.windowMs, Option.getD_none,
      alistLookup_alistSet_self, Option.getD_some]
    generalize swAllowCore sw.limit (sw.window * unitMs sw.unit) [] now = r
    rcases r with ⟨arr2, b⟩
    cases b
    · simp [alistLookup_alistSet_self]
    · simp [alistLookup_alistSet_self]
  · rw [if_neg hmem]
    simp only [SlidingWindow.windowMs]
    generalize swAllowCore sw.limit (sw.window * unitMs sw.unit)
      ((alistLookup sw.map key).getD []) now = r
    rcases r with ⟨arr2, b⟩
    cases b
    · simp [alistLookup_alistSet_self]
    · simp [alistLookup_alistSet_self]

/-- A run of `allow(key)` calls equals the per-key core run on the key's
timestamp list, provided the key is not blacklisted. -/
theorem swRunKey_eq_coreRun (key : String) :
    ∀ (ts : List Nat) (sw : SlidingWindow), key ∉ sw.blacklist →
      swRunKey sw key ts
        = swCoreRun sw.limit sw.windowMs ((alistLookup sw.map key).getD []) ts
  | [], _, _ => rfl
  | t :: ts, sw, h => by
    obtain ⟨h1, h2, h3, h4, h5, h6⟩ := sw_allow_spec sw key t h
    have hbl : key ∉ (sw.allow key t).1.blacklist := by
      rw [h5]
      exact h
    have hW : (sw.allow key t).1.windowMs = sw.windowMs := by
      simp [SlidingWindow.windowMs, h3, h4]
    have ih := swRunKey_eq_coreRun key ts (sw.allow key t).1 hbl
    rw [h2, hW, h6] at ih
    show (sw.allow key t).2 :: swRunKey (sw.allow key t).1 key ts = _
    rw [ih, h1]
    simp [swCoreRun]

/-- C2: for every SlidingWindow limiter with limit L and window length
`window * unit_ms` milliseconds, every key, and every sequence of
`allow(key)` calls at non-decreasing wall-clock times, at most L of the calls
whose timestamps fall inside any single interval `[a, a + W]` of W ms return
true, even though stale timestamps are pruned only on the over-limit path. -/
theorem sliding_window_admission (unit : String) (window limit : Nat)
    (hu : unit ∈ validUnits) (hw1 : 1 ≤ window) (hw2 : window ≤ 100000)
    (hl : 0 < limit) (key : String) (ts : List Nat)
    (hts : ts.Pairwise (· ≤ ·)) (a : Nat) :
    ((ts.zip (swRunKey (SlidingWindow.init unit window limit) key ts)).countP
        (fun p => p.2 && (decide (a ≤ p.1) && decide (p.1 ≤ a + window * unitMs unit))))
      ≤ limit := by
  have h0 : key ∉ (SlidingWindow.init unit window limit).blacklist := by
    simp [SlidingWindow.init]
  rw [swRunKey_eq_coreRun key ts _ h0]
  have haux := swCore_admission_aux limit (window * unitMs unit) a ts [] hts
    (by simp)
  simpa [SlidingWindow.init, SlidingWindow.windowMs, alistLookup] using haux

/-- Witness for C2: window 1 second, limit 1, calls at 1000 ms and 2000 ms;
the second call is denied (the 1000 ms timestamp is still in the inclusive
window), so exactly one call in [1000, 2000] is allowed. -/
theorem sliding_window_admission_witness :
    ("second" ∈ validUnits ∧ 1 ≤ 1 ∧ (1 : Nat) ≤ 100000 ∧ 0 < 1 ∧
      List.Pairwise (· ≤ ·) [1000, 2000]) ∧
    (([1000, 2000].zip
        (swRunKey (SlidingWindow.init "second" 1 1) "k" [1000, 2000])).countP
        (fun p => p.2 && (decide (1000 ≤ p.1) && decide (p.1 ≤ 1000 + 1 * unitMs "second"))))
      ≤ 1 :=
  ⟨⟨by decide, by decide, by decide, by decide, by decide⟩,
    sliding_window_admission "second" 1 1 (by decide) (by decide) (by decide)
      (by decide) "k" [1000, 2000] (by decide) 1000⟩

/-- C1 counterexample: with failure threshold 0.33331 ∈ (0, 1] and Closed
counters success = 2, error = 1 (so the observed failure rate
error/(success+error) = 1/3 over at least one completed call is ≥ the
threshold), `run` does not short-circuit: the code compares the rate rounded
to 4 decimals (0.3333 < 0.33331), invokes the protected operation once,
returns ok with its value, and stays Closed. -/
theorem circuit_breaker_trip_counterexample :
    (cbRoundingExample.state = CBState.Closed ∧
      0 < cbRoundingExample.failure_rate ∧ cbRoundingExample.failure_rate ≤ 1 ∧
      1 ≤ cbRoundingExample.success + cbRoundingExample.error ∧
      cbRoundingExample.failure_rate ≤
        (cbRoundingExample.error : Rat)
          / ((cbRoundingExample.success + cbRoundingExample.error : Nat) : Rat)) ∧
    (cbRoundingExample.run 100 (Except.ok (7 : Nat))).2.1.ok = true ∧
    (cbRoundingExample.run 100 (Except.ok (7 : Nat))).2.1.value = some 7 ∧
    (cbRoundingExample.run 100 (Except.ok (7 : Nat))).2.1.err = none ∧
    (cbRoundingExample.run 100 (Except.ok (7 : Nat))).2.2 = 1 ∧
    (cbRoundingExample.run 100 (Except.ok (7 : Nat))).1.state = CBState.Closed := by
  have hrate : cbRoundingExample.getFailureRate = 3333 / 10000 := by
    norm_num [CircuitBreaker.getFailureRate, cbRoundingExample, pyRound4, roundHalfEven]
  have hcond : ¬ (cbRoundingExample.failure_rate ≤ cbRoundingExample.getFailureRate) := by
    rw [hrate]
    norm_num [cbRoundingExample]
  have hrun : cbRoundingExample.run 100 (Except.ok (7 : Nat))
      = ({ cbRoundingExample with success := cbRoundingExample.success + 1 },
          ⟨true, some 7, none⟩, 1) := by
    unfold CircuitBreaker.run cbRoundingExample
    simp only []
    unfold CircuitBreaker.handleClosed
    rw [if_neg (by simpa [cbRoundingExample] using hcond)]
  refine ⟨⟨rfl, by norm_num [cbRoundingExample], by norm_num [cbRoundingExample],
    by norm_num [cbRoundingExample], by norm_num [cbRoundingExample]⟩, ?_, ?_, ?_, ?_, ?_⟩ <;>
    (rw [hrun]; try rfl)

/-- C1 (amended): whenever `run` is entered in the Closed state with failure
threshold t ∈ (0, 1] and the observed closed failure rate as the code
computes it — error/(success+error) rounded to 4 decimal places — is ≥ t,
the call returns (false, none, Open-state error) without invoking the
protected operation, and afterwards the state is Open with opened-at set to
the current time. -/
theorem circuit_breaker_trip {α : Type} (cb : CircuitBreaker) (now : Nat)
    (op : Except String α) (hst : cb.state = CBState.Closed)
    (h0 : 0 < cb.failure_rate) (h1 : cb.failure_rate ≤ 1)
    (hcalls : 1 ≤ cb.success + cb.error)
    (hr : cb.failure_rate ≤ cb.getFailureRate) :
    cb.run now op
      = ({ cb with state := CBState.Open, time_opened := some now },
          ⟨false, none, some (CBError.openState closedOpenMsg)⟩, 0) := by
  unfold CircuitBreaker.run
  rw [hst]
  unfold CircuitBreaker.handleClosed
  rw [if_pos hr]

/-- Evaluation of the tripped example's rounded failure rate. -/
theorem cbTrippedExample_rate : cbTrippedExample.getFailureRate = 1 := by
  norm_num [CircuitBreaker.getFailureRate, cbTrippedExample, pyRound4, roundHalfEven]

/-- Witness for C1 at a breaker with threshold 1 and one recorded failure
(rounded rate 1 ≥ 1). -/
theorem circuit_breaker_trip_witness :
    (cbTrippedExample.state = CBState.Closed ∧
      0 < cbTrippedExample.failure_rate ∧ cbTrippedExample.failure_rate ≤ 1 ∧
      1 ≤ cbTrippedExample.success + cbTrippedExample.error ∧
      cbTrippedExample.failure_rate ≤ cbTrippedExample.getFailureRate) ∧
    cbTrippedExample.run 42 (Except.ok (0 : Nat))
      = ({ cbTrippedExample with state := CBState.Open, time_opened := some 42 },
          ⟨false, none, some (CBError.openState closedOpenMsg)⟩, 0) :=
  ⟨⟨rfl, by simp [cbTrippedExample], by simp [cbTrippedExample], by simp [cbTrippedExample],
      by rw [cbTrippedExample_rate]; simp [cbTrippedExample]⟩,
    circuit_breaker_trip cbTrippedExample 42 (Except.ok (0 : Nat)) rfl
      (by simp [cbTrippedExample]) (by simp [cbTrippedExample])
      (by simp [cbTrippedExample]) (by rw [cbTrippedExample_rate]; simp [cbTrippedExample])⟩

/-- A successful association-list lookup comes from a pair of the list. -/
theorem alistLookup_mem {κ α : Type} [DecidableEq κ] (l : List (κ × α)) (k : κ) (v : α)
    (h : alistLookup l k = some v) : (k, v) ∈ l := by
  induction l with
  | nil => simp [alistLookup] at h
  | cons p rest ih =>
    obtain ⟨p1, p2⟩ := p
    rw [alistLookup] at h
    by_cases hp : p1 = k
    · rw [if_pos hp] at h
      injection h with h2
      subst h2
      subst hp
      exact List.mem_cons_self _ _
    · rw [if_neg hp] at h
      exact List.mem_cons_of_mem _ (ih h)

/-- C8 counterexample: on a stale window, `remaining` is not read-only: it
clears the per-key counts and moves the window start, so the claimed
frame condition fails at this concrete input. -/
theorem fixed_window_remaining_counterexample :
    (fwStaleExample.remaining "k" 5000).1.map = [] ∧
    fwStaleExample.map = [("k", 1)] ∧
    (fwStaleExample.remaining "k" 5000).1.start_window = 5000 ∧
    fwStaleExample.start_window = 0 ∧
    (fwStaleExample.remaining "k" 5000).1 ≠ fwStaleExample := by
  decide

/-- C8 (amended): `remaining(k)` returns `limit - count(k)` taken after
advancing a stale window, and is never negative when every stored count is at
most the limit (which `allow` maintains). It never touches the metrics,
global counters, blacklist, limit or unit; when the current time lies inside
`[start, start + window]` the state is completely unchanged, and in general
the only state change is the stale-window reset `_ensure_window_current`
itself performs. -/
theorem fixed_window_remaining (fw : FixedWindowCounter) (key : String)
    (now : Nat) (hinv : ∀ p ∈ fw.map, p.2 ≤ fw.limit) :
    ((fw.remaining key now).2
        = (fw.limit : Int)
          - (((alistLookup (fw.ensureWindowCurrent now).map key).getD 0 : Nat) : Int) ∧
      0 ≤ (fw.remaining key now).2) ∧
    ((fw.remaining key now).1.user_metrics = fw.user_metrics ∧
      (fw.remaining key now).1.allowed = fw.allowed ∧
      (fw.remaining key now).1.denied = fw.denied ∧
      (fw.remaining key now).1.blacklist = fw.blacklist ∧
      (fw.remaining key now).1.limit = fw.limit ∧
      (fw.remaining key now).1.unit = fw.unit) ∧
    (fw.start_window ≤ now → now ≤ fw.start_window + unitMs fw.unit →
      (fw.remaining key now).1 = fw) ∧
    (fw.remaining key now).1 = fw.ensureWindowCurrent now := by
  unfold FixedWindowCounter.remaining FixedWindowCounter.ensureWindowCurrent
  by_cases hc : now < fw.start_window ∨ fw.start_window + unitMs fw.unit < now
  · rw [if_pos hc]
    refine ⟨⟨rfl, ?_⟩, ⟨rfl, rfl, rfl, rfl, rfl, rfl⟩, ?_, rfl⟩
    · simp [alistLookup]
    · intro h1 h2
      omega
  · rw [if_neg hc]
    refine ⟨⟨rfl, ?_⟩, ⟨rfl, rfl, rfl, rfl, rfl, rfl⟩, ?_, rfl⟩
    · show 0 ≤ (fw.limit : Int) - (((alistLookup fw.map key).getD 0 : Nat) : Int)
      cases hl : alistLookup fw.map key with
      | none => simp
      | some c =>
        have hb : c ≤ fw.limit := hinv (key, c) (alistLookup_mem _ _ _ hl)
        simp only [Option.getD_some]
        omega
    · intro h1 h2
      rfl

/-- Witness for C8 at a concrete in-window state: counts satisfy the
invariant, and `remaining` leaves the state untouched. -/
theorem fixed_window_remaining_witness :
    (∀ p ∈ fwStaleExample.map, p.2 ≤ fwStaleExample.limit) ∧
    (((fwStaleExample.remaining "k" 500).2
        = (fwStaleExample.limit : Int)
          - (((alistLookup (fwStaleExample.ensureWindowCurrent 500).map "k").getD 0 : Nat) : Int) ∧
      0 ≤ (fwStaleExample.remaining "k" 500).2) ∧
    ((fwStaleExample.remaining "k" 500).1.user_metrics = fwStaleExample.user_metrics ∧
      (fwStaleExample.remaining "k" 500).1.allowed = fwStaleExample.allowed ∧
      (fwStaleExample.remaining "k" 500).1.denied = fwStaleExample.denied ∧
      (fwStaleExample.remaining "k" 500).1.blacklist = fwStaleExample.blacklist ∧
      (fwStaleExample.remaining "k" 500).1.limit = fwStaleExample.limit ∧
      (fwStaleExample.remaining "k" 500).1.unit = fwStaleExample.unit) ∧
    (fwStaleExample.start_window ≤ 500 → 500 ≤ fwStaleExample.start_window + unitMs fwStaleExample.unit →
      (fwStaleExample.remaining "k" 500).1 = fwStaleExample) ∧
    (fwStaleExample.remaining "k" 500).1 = fwStaleExample.ensureWindowCurrent 500) :=
  ⟨by decide, fixed_window_remaining fwStaleExample "k" 500 (by decide)⟩

/-- Inductive invariant for the Worker's results deque: along any event
sequence with non-decreasing completion times, the record step preserves the
length bound, the timestamp ordering, and the fact that every retained
timestamp precedes every future event. -/
theorem worker_retention_aux {α : Type} (max_results : Nat)
    (hmax : 1 ≤ max_results) :
    ∀ (events : List (Nat × α)) (results : List (TaskResult α)),
      (events.map Prod.fst).Pairwise (· ≤ ·) →
      results.length ≤ max_results →
      (results.map TaskResult.completed_at).Pairwise (· ≤ ·) →
      (∀ r ∈ results, ∀ e ∈ events, r.completed_at ≤ e.1) →
      (workerRunResults max_results results events).length ≤ max_results ∧
        ((workerRunResults max_results results events).map
            TaskResult.completed_at).Pairwise (· ≤ ·)
  | [], results, _, hlen, hsort, _ => ⟨hlen, hsort⟩
  | (t, v) :: evs, results, hmono, hlen, hsort, hfut => by
    have hmono' : (evs.map Prod.fst).Pairwise (· ≤ ·) :=
      (List.pairwise_cons.mp hmono).2
    have htall : ∀ e ∈ evs, t ≤ e.1 := by
      intro e he
      exact (List.pairwise_cons.mp hmono).1 e.1 (List.mem_map_of_mem Prod.fst he)
    have hbasesub : (if max_results ≤ results.length then results.drop 1
        else results) ⊆ results := by
      split
      · exact List.drop_subset 1 results
      · exact fun x hx => hx
    have hbase_le_t : ∀ r ∈ (if max_results ≤ results.length then results.drop 1
        else results), r.completed_at ≤ t := by
      intro r hr
      exact hfut r (hbasesub hr) (t, v) (List.mem_cons_self _ _)
    have hlen' : (workerRecordResult max_results results t v).length ≤ max_results := by
      unfold workerRecordResult
      rw [List.length_append]
      split
      · rename_i hge
        simp only [List.length_drop, List.length_cons, List.length_nil]
        omega
      · rename_i hlt
        simp only [List.length_cons, List.length_nil]
        omega
    have hsort' : ((workerRecordResult max_results results t v).map
        TaskResult.completed_at).Pairwise (· ≤ ·) := by
      unfold workerRecordResult
      rw [List.map_append, List.pairwise_append]
      refine ⟨?_, ?_, ?_⟩
      · split
        · exact List.Pairwise.sublist ((List.drop_sublist 1 results).map _) hsort
        · exact hsort
      · simp
      · intro x hx y hy
        simp only [List.map_cons, List.map_nil, List.mem_singleton] at hy
        obtain ⟨r, hr, rfl⟩ := List.mem_map.mp hx
        rw [hy]
        exact hbase_le_t r hr
    have hfut' : ∀ r ∈ workerRecordResult max_results results t v, ∀ e ∈ evs,
        r.completed_at ≤ e.1 := by
      intro r hr e he
      unfold workerRecordResult at hr
      rcases List.mem_append.mp hr with hr | hr
      · exact hfut r (hbasesub hr) e (List.mem_cons_of_mem _ he)
      · simp only [List.mem_singleton] at hr
        rw [hr]
        exact htall e he
    exact worker_retention_aux max_results hmax evs
      (workerRecordResult max_results results t v) hmono' hlen' hsort' hfut'

/-- C9: for every Worker with max_results ≥ 1, at every point during task
execution (every prefix of the recorded completions, whether recorded in the
main loop or inside the retry handler) the retained results satisfy
`len(results) ≤ max_results`, and the stored TaskResults are ordered oldest
to newest with non-decreasing completed_at timestamps. -/
theorem worker_retention {α : Type} (max_results : Nat) (hmax : 1 ≤ max_results)
    (events : List (Nat × α))
    (hmono : (events.map Prod.fst).Pairwise (· ≤ ·)) (n : Nat) :
    (workerRunResults max_results ([] : List (TaskResult α))
        (events.take n)).length ≤ max_results ∧
      ((workerRunResults max_results ([] : List (TaskResult α))
          (events.take n)).map TaskResult.completed_at).Pairwise (· ≤ ·) := by
  have hmono' : ((events.take n).map Prod.fst).Pairwise (· ≤ ·) := by
    rw [List.map_take]
    exact List.Pairwise.sublist ((List.take_sublist n _)) hmono
  exact worker_retention_aux max_results hmax (events.take n) [] hmono'
    (by simp) (by simp) (by simp)

/-- Witness for C9: cap 2, three completions at times 1, 2, 3; the deque
keeps the two newest results in order. -/
theorem worker_retention_witness :
    (1 ≤ 2 ∧ (([(1, 10), (2, 20), (3, 30)] : List (Nat × Nat)).map
        Prod.fst).Pairwise (· ≤ ·)) ∧
    (workerRunResults 2 ([] : List (TaskResult Nat))
        (([(1, 10), (2, 20), (3, 30)] : List (Nat × Nat)).take 3)).length ≤ 2 ∧
      ((workerRunResults 2 ([] : List (TaskResult Nat))
          (([(1, 10), (2, 20), (3, 30)] : List (Nat × Nat)).take 3)).map
          TaskResult.completed_at).Pairwise (· ≤ ·) :=
  ⟨⟨by decide, by decide⟩,
    worker_retention 2 (by decide) [(1, 10), (2, 20), (3, 30)] (by decide) 3⟩

/-- The modular arc length, as an integer: the plain difference plus one
full circle exactly when the arc wraps. -/
theorem ringGap_int (a b : Nat) (ha : a < UPPER_BOUND + 1)
    (hb : b < UPPER_BOUND + 1) :
    (ringGap a b : Int)
      = (b : Int) - (a : Int)
        + ((UPPER_BOUND : Int) + 1) * (if b < a then 1 else 0) := by
  unfold ringGap UPPER_BOUND at *
  norm_num at ha hb ⊢
  by_cases hba : b < a
  · rw [if_pos hba]
    omega
  · rw [if_neg hba]
    omega

/-- Reindexing the cyclic successor: summing any integer weight over
`(i+1) % N` for `i < N` equals summing it over `i < N`. -/
theorem ring_shift_sum (l : List Nat) :
    ∑ i in Finset.range l.length, (l.getD ((i + 1) % l.length) 0 : Int)
      = ∑ i in Finset.range l.length, (l.getD i 0 : Int) := by
  rcases Nat.eq_zero_or_pos l.length with h0 | hpos
  · simp [h0]
  · refine Finset.sum_nbij' (fun a => (a + 1) % l.length)
      (fun b => (b + (l.length - 1)) % l.length) ?_ ?_ ?_ ?_ ?_
    · intro a _
      exact Finset.mem_range.mpr (Nat.mod_lt _ hpos)
    · intro b _
      exact Finset.mem_range.mpr (Nat.mod_lt _ hpos)
    · intro a ha
      rw [Finset.mem_range] at ha
      show ((a + 1) % l.length + (l.length - 1)) % l.length = a
      rw [Nat.mod_add_mod, show a + 1 + (l.length - 1) = a + l.length by omega,
        Nat.add_mod_right, Nat.mod_eq_of_lt ha]
    · intro b hb
      rw [Finset.mem_range] at hb
      show ((b + (l.length - 1)) % l.length + 1) % l.length = b
      rw [Nat.mod_add_mod, show b + (l.length - 1) + 1 = b + l.length by omega,
        Nat.add_mod_right, Nat.mod_eq_of_lt hb]
    · intro a _
      rfl

/-- The cyclic modular gaps of any position list in `[0, 2^32)` sum to
`2^32` times the number of cyclic descents. -/
theorem ring_gap_sum (l : List Nat) (hl : ∀ x ∈ l, x < UPPER_BOUND + 1) :
    ∑ i in Finset.range l.length, (nodeGap l i : Int)
      = ((UPPER_BOUND : Int) + 1) * (cyclicDescents l : Int) := by
  have hterm : ∀ i ∈ Finset.range l.length,
      (nodeGap l i : Int)
        = ((l.getD ((i + 1) % l.length) 0 : Int) - (l.getD i 0 : Int))
          + ((UPPER_BOUND : Int) + 1)
            * (if l.getD ((i + 1) % l.length) 0 < l.getD i 0 then 1 else 0) := by
    intro i hi
    rw [Finset.mem_range] at hi
    have hpos : 0 < l.length := by omega
    have ha : l.getD i 0 < UPPER_BOUND + 1 := by
      rw [List.getD_eq_getElem l 0 hi]
      exact hl _ (List.getElem_mem _)
    have hb : l.getD ((i + 1) % l.length) 0 < UPPER_BOUND + 1 := by
      rw [List.getD_eq_getElem l 0 (Nat.mod_lt _ hpos)]
      exact hl _ (List.getElem_mem _)
    exact ringGap_int _ _ ha hb
  rw [Finset.sum_congr rfl hterm, Finset.sum_add_distrib, Finset.sum_sub_distrib,
    ring_shift_sum, ← Finset.mul_sum, Finset.sum_boole]
  simp [cyclicDescents]

/-- In an association list with distinct keys, looking up the key of a
member returns that member's value. -/
theorem alistLookup_of_mem_nodup {κ α : Type} [DecidableEq κ]
    (l : List (κ × α)) (e : κ × α) (he : e ∈ l)
    (h : (l.map (fun p => p.1)).Nodup) : alistLookup l e.1 = some e.2 := by
  induction l with
  | nil => simp at he
  | cons p rest ih =>
    rw [List.map_cons, List.nodup_cons] at h
    rcases List.mem_cons.mp he with rfl | he'
    · rw [alistLookup, if_pos rfl]
    · rw [alistLookup]
      have hne : p.1 ≠ e.1 := by
        intro hcontra
        exact h.1 (hcontra ▸ List.mem_map_of_mem (fun q => q.1) he')
      rw [if_neg hne]
      exact ih he' h.2

/-- Summing an integer weight over a flattened list of index blocks equals
summing the per-block sums. -/
theorem sum_flatMap_blocks (f : Nat → Int) (l : List (List Nat)) :
    ((l.flatMap id).map f).sum = (l.map (fun s => (s.map f).sum)).sum := by
  induction l with
  | nil => rfl
  | cons x xs ih => simp [List.flatMap_cons, ih, Function.comp_def]

/-- C6 counterexample: a ring built with one server and one virtual node
(position 5) is a valid ring per the claim's precondition, yet the sum of
`get_server_capacity` over all servers is 0, not 2^32. -/
theorem capacity_conservation_counterexample :
    (buildRing 1 1 [5]).servers = 1 ∧ (buildRing 1 1 [5]).nodes = 1 ∧
    (buildRing 1 1 [5]).ring_nodes = [5] ∧
    (buildRing 1 1 [5]).mapping = [(0, [0], 0)] ∧
    (buildRing 1 1 [5]).totalServerCapacity = 0 ∧
    (buildRing 1 1 [5]).totalServerCapacity ≠ 2 ^ 32 := by
  decide

/-- C6 (amended): for every ring state whose owned-index sets partition the
ring indices (the data-model invariant: their multiset union is exactly
{0,…,N-1}, with one mapping entry per server) and whose positions lie in
[0, 2^32), the sum of `get_server_capacity(s)` over all servers s present in
the mapping equals `2^32 × d`, where d is the number of cyclic descents of
the position list. A sorted ring with at least two distinct positions has
d = 1, giving exactly 2^32; a single-vnode ring has d = 0 and sum 0. -/
theorem capacity_conservation (ch : ConsistentHashing)
    (hbound : ∀ x ∈ ch.ring_nodes, x < UPPER_BOUND + 1)
    (hkeys : (ch.mapping.map (fun e => e.1)).Nodup)
    (hperm : (ch.mapping.flatMap (fun e => e.2.1)).Perm
      (List.range ch.ring_nodes.length)) :
    ch.totalServerCapacity = 2 ^ 32 * (cyclicDescents ch.ring_nodes : Int) := by
  have hentry : ∀ e ∈ ch.mapping,
      ch.getServerCapacity e.1 = (e.2.1.map (fun i => ch.getNodeCapacity i)).sum := by
    intro e he
    unfold ConsistentHashing.getServerCapacity
    rw [alistLookup_of_mem_nodup ch.mapping e he hkeys]
  have hstep1 : ch.totalServerCapacity
      = ((ch.mapping.map (fun e => e.2.1)).map
          (fun s => (s.map (fun i => ch.getNodeCapacity i)).sum)).sum := by
    unfold ConsistentHashing.totalServerCapacity
    rw [List.map_map]
    exact congrArg List.sum (List.map_congr_left (by
      intro e he
      exact hentry e he))
  have hstep2 : ((ch.mapping.map (fun e => e.2.1)).map
      (fun s => (s.map (fun i => ch.getNodeCapacity i)).sum)).sum
      = (((ch.mapping.map (fun e => e.2.1)).flatMap id).map
          (fun i => ch.getNodeCapacity i)).sum :=
    (sum_flatMap_blocks _ _).symm
  have hflat : (ch.mapping.map (fun e => e.2.1)).flatMap id
      = ch.mapping.flatMap (fun e => e.2.1) := by
    induction ch.mapping with
    | nil => rfl
    | cons x xs ih => simp only [List.map_cons, List.flatMap_cons, ih, id]
  have hstep3 : ((ch.mapping.flatMap (fun e => e.2.1)).map
      (fun i => ch.getNodeCapacity i)).sum
      = ((List.range ch.ring_nodes.length).map
          (fun i => ch.getNodeCapacity i)).sum :=
    (hperm.map _).sum_eq
  have hcap : ∀ i ∈ List.range ch.ring_nodes.length,
      ch.getNodeCapacity i = (nodeGap ch.ring_nodes i : Int) := by
    intro i hi
    rw [List.mem_range] at hi
    unfold ConsistentHashing.getNodeCapacity
    rw [if_neg (by omega)]
  have hstep4 : ((List.range ch.ring_nodes.length).map
      (fun i => ch.getNodeCapacity i)).sum
      = ∑ i in Finset.range ch.ring_nodes.length, (nodeGap ch.ring_nodes i : Int) := by
    rw [List.map_congr_left hcap]
    rfl
  rw [hstep1, hstep2, hflat, hstep3, hstep4, ring_gap_sum ch.ring_nodes hbound]
  norm_num [UPPER_BOUND]

/-- Witness for C6 at a two-server ring with sorted distinct positions
10 < 20: one cyclic descent, so the capacities sum to exactly 2^32. -/
theorem capacity_conservation_witness :
    ((∀ x ∈ (buildRing 2 1 [10, 20]).ring_nodes, x < UPPER_BOUND + 1) ∧
      ((buildRing 2 1 [10, 20]).mapping.map (fun e => e.1)).Nodup ∧
      ((buildRing 2 1 [10, 20]).mapping.flatMap (fun e => e.2.1)).Perm
        (List.range (buildRing 2 1 [10, 20]).ring_nodes.length)) ∧
    (buildRing 2 1 [10, 20]).totalServerCapacity
      = 2 ^ 32 * (cyclicDescents (buildRing 2 1 [10, 20]).ring_nodes : Int) :=
  ⟨⟨by decide, by decide, by decide⟩,
    capacity_conservation (buildRing 2 1 [10, 20]) (by decide) (by decide) (by decide)⟩

/-- C7 counterexample: on the concrete ring built with one server and one
vnode, `get_server(None)` does not raise: `None` is stringified to
`"None"`, hashed, and resolved to server 0 (shown for a concrete stand-in
digest function; the non-raising path does not depend on the digest). -/
theorem get_server_none_counterexample :
    (buildRing 1 1 [5]).getServer (fun s => s.length) none = Except.ok 0 ∧
    (buildRing 1 1 [5]).ring_nodes ≠ [] :=
  ⟨rfl, by decide⟩

/-- C7 (amended): for every ring, digest function and datum (`None`
included), `get_server` raises exactly when the ring contains no virtual
nodes — with the "Ring has no virtual nodes" error — and otherwise returns
the owner of the reduced hash's ring index without raising. -/
theorem get_server_raises_iff_empty (h : String → Nat) (ch : ConsistentHashing)
    (data : Option String) :
    ch.getServer h data
      = if ch.ring_nodes.isEmpty then
          Except.error "Ring has no virtual nodes"
        else
          Except.ok (ch.getServerFromRingIndex
            (h (pyStr data) % (UPPER_BOUND + 1) % ch.ring_nodes.length)) := by
  by_cases he : ch.ring_nodes.isEmpty
  · simp [ConsistentHashing.getServer, ConsistentHashing.getRingIndexFromHash, he,
      Except.map]
  · simp [ConsistentHashing.getServer, ConsistentHashing.getRingIndexFromHash, he,
      Except.map]

/-- C4: evaluating the constructor dispatch at a valid one-backend pool,
timeout 30 and healthy threshold 1/2. Three of the four documented strategy
names construct successfully and an unrecognized name raises ValueError, but
`"least_connections"` raises TypeError: `__init_load_balancer` passes
`healthy=` to `LeastConnectionsLoadBalancing.__init__`, whose signature
`(self, servers, timeout)` does not accept it — contradicting the claim and
the repo's own `test_load_balancer_init_least_connections`. -/
theorem load_balancer_least_connections_type_error :
    LoadBalancer.init "least_connections" 30 [("s1", mkBackend "s1" 1)] (1 / 2) 0
      = Except.error (PyError.typeError
          "LeastConnectionsLoadBalancing.__init__() got an unexpected keyword argument: healthy") ∧
    (LoadBalancer.init "round_robin" 30 [("s1", mkBackend "s1" 1)] (1 / 2) 0).isOk = true ∧
    (LoadBalancer.init "weighted_round_robin" 30 [("s1", mkBackend "s1" 1)] (1 / 2) 0).isOk = true ∧
    (LoadBalancer.init "least_time" 30 [("s1", mkBackend "s1" 1)] (1 / 2) 0).isOk = true ∧
    LoadBalancer.init "bogus" 30 [("s1", mkBackend "s1" 1)] (1 / 2) 0
      = Except.error (PyError.valueError
          "Error initializing load balancer, strategy must be one of the four known strategies") := by
  have hbase : lbStrategyBaseInit [("s1", mkBackend "s1" 1)] 30 (1 / 2)
      = Except.ok () := by
    unfold lbStrategyBaseInit
    norm_num
  refine ⟨rfl, ?_, ?_, ?_, rfl⟩
  · unfold LoadBalancer.init initLoadBalancerStrategy
    rw [hbase]
    rfl
  · unfold LoadBalancer.init initLoadBalancerStrategy WeightedRoundRobin.init
    rw [hbase]
    rfl
  · unfold LoadBalancer.init initLoadBalancerStrategy
    rw [hbase]
    rfl

/-- C5: the weighted strategy over weights {4, 2, 1} (all backends healthy
and below capacity throughout, starting cursor 2). Over 70 consecutive
`next()` calls the code chooses A 28 times, B 22 times and C 17 times, and
3 of the calls raise "No healthy servers available with capacity" — not the
claimed exact 40/20/10 split: a backend that hits its per-round quota has
its counter reset immediately while the others are still mid-round, so
small-weight backends are re-served early and a call that finds every
counter at quota raises despite all backends being eligible. -/
theorem weighted_round_robin_70_counts :
    WeightedRoundRobin.init wrrPool 30 (1 / 2) 2 = Except.ok wrrExample ∧
    ((wrrRun wrrExample 70).count (some "A") = 28 ∧
      (wrrRun wrrExample 70).count (some "B") = 22 ∧
      (wrrRun wrrExample 70).count (some "C") = 17 ∧
      (wrrRun wrrExample 70).count none = 3) ∧
    (wrrRun wrrExample 70).count (some "A") ≠ 40 ∧
    (wrrRun wrrExample 70).count (some "B") ≠ 20 ∧
    (wrrRun wrrExample 70).count (some "C") ≠ 10 := by
  refine ⟨?_, ⟨by decide, by decide, by decide, by decide⟩, by decide, by decide, by decide⟩
  have hbase : lbStrategyBaseInit wrrPool 30 (1 / 2) = Except.ok () := by
    unfold lbStrategyBaseInit wrrPool
    norm_num
  unfold WeightedRoundRobin.init
  rw [hbase]
  rfl

/-- C3: every `request(method, headers, body)` call — GET or POST, whatever
the hedged attempts would have returned (`k`) — raises AttributeError
instead of returning the winning attempt's JSON body: `request` invokes
`self.request_async`, which the class does not define (the hedging coroutine
is named `fetch_data`), so no attempt is ever started. -/
theorem hedging_request_attribute_error {α : Type} (rh : RequestHedging)
    (method : String) (headers body : List (String × String))
    (k : String → List (String × String) → List (String × String) →
      Except HedgeError α) :
    rh.request method headers body k
      = Except.error (HedgeError.attributeError
          "RequestHedging object has no attribute: request_async") := rfl

end NexusEngine
